import Mathlib

/-!
Verification of the kaishaku session lifecycle manager (src/kaishaku.c).

The C program keeps, per session, a directory `.git/kaishaku/<name>` with up to
four one-line record files (`session` = original ref, `head`, `time`, `desc`),
plus a single `.git/kaishaku/.active` file holding the active session name.
The external VCS is driven through `execute_git_command`, which maps a spawned
process to a success flag plus a captured first output line.

The embedding below models the record store as an association list of session
directories, the active pointer as an `Option String`, and the VCS gateway as
an abstract executor `GitExec` threading an arbitrary git-side state.  Each
`cmd_*` function is translated from the corresponding C function, carrying its
exit code, the list of issued git commands (the trace), and emitted warnings.

Two source-level facts shape the translation and are resolved explicitly at
every affected site (the translation gives the EFFECTIVE semantics of the C):

1. `read_from_file` (kaishaku.c:226-247) returns one shared static buffer, so
   every pointer it ever returned aliases the most recent read.  E.g. in
   `cmd_save`, after reading the original branch (line 404) the `session`
   pointer denotes the original-branch string.

2. `safe_path_join` (kaishaku.c:127-138) returns one shared static path
   buffer, so path variables computed by the `SESSION_FILE`/`HEAD_FILE`/...
   macros all alias the most recently built path.  E.g. in `cmd_clean` both
   `session_file` and `head_file` (lines 720-721) denote the head path, and in
   `cmd_abort` all four record paths (lines 1051-1054) denote the desc path.
   The nested `snprintf` inside the macros works as the author intends (the
   attribute comment at line 127 documents the deliberate self-aliasing).

Simplifications that do not affect the claims: `.git/kaishaku` itself always
exists (load_config creates it before any command runs); writes to the active
file and record writes into an existing directory succeed (IO errors are
fatal-by-exit in the source and outside the claims); timestamp contents are
abstracted to a fixed string `nowStamp` (no control flow reads them); printed
text is abstracted to structured `Msg` events at the corresponding sites.
-/

namespace Kaishaku

/-- The record files of one session directory `.git/kaishaku/<name>`:
`session` (original ref), `head`, `time`, `desc`.  `none` means the file is
absent; `some v` means it exists with one-line content `v`. -/
structure SessionDir where
  sessionFile : Option String
  headFile : Option String
  timeFile : Option String
  descFile : Option String
deriving Repr, DecidableEq

/-- A freshly created, empty session directory. -/
def SessionDir.emptyDir : SessionDir := ⟨none, none, none, none⟩

/-- The on-disk state of the record store: the session directories (in
directory-enumeration order) and the `.active` pointer file (`none` when the
file is absent). -/
structure Store where
  sessions : List (String × SessionDir)
  active : Option String
deriving Repr, DecidableEq

/-- Look up a session directory by name (first match). -/
def findIn : List (String × SessionDir) → String → Option SessionDir
  | [], _ => none
  | (n, d) :: rest, s => if n = s then some d else findIn rest s

def Store.find (st : Store) (s : String) : Option SessionDir :=
  findIn st.sessions s

/-- `file_exists(SESSION_DIR(s))`. -/
def Store.dirExists (st : Store) (s : String) : Bool :=
  (st.find s).isSome

/-- Read the `session` (original ref) record of `s`; `none` when the
directory or the file is absent (`read_from_file` returning NULL). -/
def Store.readSession (st : Store) (s : String) : Option String :=
  (st.find s).bind (·.sessionFile)

/-- Read the `head` record of `s`. -/
def Store.readHead (st : Store) (s : String) : Option String :=
  (st.find s).bind (·.headFile)

/-- Read the `time` record of `s`. -/
def Store.readTime (st : Store) (s : String) : Option String :=
  (st.find s).bind (·.timeFile)

/-- Read the `desc` record of `s`. -/
def Store.readDesc (st : Store) (s : String) : Option String :=
  (st.find s).bind (·.descFile)

/-- Apply `f` to the directory named `s`, if present (a record write or
unlink inside an existing directory). -/
def Store.updateDir (st : Store) (s : String) (f : SessionDir → SessionDir) : Store :=
  ⟨st.sessions.map (fun p => if p.1 = s then (p.1, f p.2) else p), st.active⟩

/-- `ensure_directory_exists(SESSION_DIR(s))`: create the directory if absent
(kaishaku.c:188-206); an existing directory and its records are untouched. -/
def Store.ensureDir (st : Store) (s : String) : Store :=
  if st.dirExists s then st else ⟨st.sessions ++ [(s, SessionDir.emptyDir)], st.active⟩

/-- Overwrite the `session` record content of a directory. -/
def SessionDir.setSession (v : String) (d : SessionDir) : SessionDir :=
  ⟨some v, d.headFile, d.timeFile, d.descFile⟩

/-- Overwrite the `head` record content of a directory. -/
def SessionDir.setHead (v : String) (d : SessionDir) : SessionDir :=
  ⟨d.sessionFile, some v, d.timeFile, d.descFile⟩

/-- Overwrite the `time` record content of a directory. -/
def SessionDir.setTime (v : String) (d : SessionDir) : SessionDir :=
  ⟨d.sessionFile, d.headFile, some v, d.descFile⟩

/-- Remove the `head` record of a directory. -/
def SessionDir.dropHead (d : SessionDir) : SessionDir :=
  ⟨d.sessionFile, none, d.timeFile, d.descFile⟩

/-- Remove the `desc` record of a directory. -/
def SessionDir.dropDesc (d : SessionDir) : SessionDir :=
  ⟨d.sessionFile, d.headFile, d.timeFile, none⟩

/-- `write_to_file(SESSION_FILE(s), v)`: fails (`none`) when the directory is
absent, mirroring fopen failing on a missing parent directory. -/
def Store.writeSessionFile (st : Store) (s v : String) : Option Store :=
  if st.dirExists s then some (st.updateDir s (SessionDir.setSession v)) else none

/-- `write_to_file(HEAD_FILE(s), v)`, failing when the directory is absent. -/
def Store.writeHead (st : Store) (s v : String) : Option Store :=
  if st.dirExists s then some (st.updateDir s (SessionDir.setHead v)) else none

/-- A head write whose result the source ignores (kaishaku.c:443). -/
def Store.writeHeadBestEffort (st : Store) (s v : String) : Store :=
  (st.writeHead s v).getD st

/-- `update_timestamp(s)` (kaishaku.c:1065-1070): best-effort write of the
`time` record; a failure is ignored. -/
def Store.writeTimeBestEffort (st : Store) (s v : String) : Store :=
  if st.dirExists s then st.updateDir s (SessionDir.setTime v) else st

/-- `write_to_file(ACTIVE_FILE, s)`; `.git/kaishaku` always exists, so this
write succeeds. -/
def Store.setActive (st : Store) (s : String) : Store :=
  ⟨st.sessions, some s⟩

/-- `unlink(ACTIVE_FILE)`. -/
def Store.clearActive (st : Store) : Store :=
  ⟨st.sessions, none⟩

/-- Remove the `head` record of `s` if the directory exists. -/
def Store.removeHeadFile (st : Store) (s : String) : Store :=
  st.updateDir s SessionDir.dropHead

/-- Remove the `desc` record of `s` if the directory exists. -/
def Store.removeDesc (st : Store) (s : String) : Store :=
  st.updateDir s SessionDir.dropDesc

/-- Abstract timestamp content written by `update_timestamp`; the program
never branches on record time values, so the wall clock is abstracted. -/
def nowStamp : String := "now"

/-- The directory-entry filter used by the enumeration loops
(kaishaku.c:628, 749): skip entries whose name starts with a dot (which also
covers the `.active` marker). -/
def dotName (name : String) : Bool :=
  name.data.head? == some '.'

/-- The git command lines the program issues, in structured form.  The
`commitSave`/`stashPush` constructors carry the string interpolated into the
generated message (see `cmd_exit`). -/
inductive GitCmd where
  | revParseAbbrevHead
  | revParseHead
  | revParseVerify (ref : String)
  | checkoutDetach (ref : String)
  | checkoutBranch (ref : String)
  | checkoutNewBranch (name : String)
  | merge (branch : String)
  | branchDeleteForce (name : String)
  | statusPorcelain
  | commitSave (msgName : String)
  | stashPush (msgName : String)
  | resetHard
deriving Repr, DecidableEq

/-- `execute_git_command` as an abstract executor: given a command and the
current git-side state, return (success flag, captured first output line, new
git-side state).  A command with required output that produced none is a
failed command in the source, so failure subsumes that case. -/
structure GitExec (γ : Type) where
  run : GitCmd → γ → Bool × String × γ

/-- A stateless executor built from a pure result table. -/
def pureExec (f : GitCmd → Bool × String) : GitExec Unit :=
  ⟨fun c _ => ((f c).1, (f c).2, ())⟩

/-- Structured stand-ins for the messages the program prints at the
corresponding source lines. -/
inductive Msg where
  | abortedPrompt
  | cleanedCount (n : Nat)
  | warnDeleteTemp (name : String)
  | warnStash
  | warnMissingBranch (name : String)
deriving Repr, DecidableEq

/-- Result of running one command handler: final record store, final git-side
state, process exit code (0 or 1), the git commands issued in order, and the
structured messages emitted. -/
structure Res (γ : Type) where
  store : Store
  git : γ
  code : Nat
  trace : List GitCmd
  events : List Msg
deriving Repr, DecidableEq

/-- Tail of `cmd_checkout` after the commit to detach to has been resolved
(kaishaku.c:308-327): write the `head` record, write the active pointer,
update the timestamp, then `git checkout <commit> --detach`. -/
def cmd_checkout_rest {γ : Type} (session commit : String) (st : Store) (e : GitExec γ)
    (g : γ) (t : List GitCmd) : Res γ :=
  match st.writeHead session commit with
  | none => ⟨st, g, 1, t, []⟩
  | some st1 =>
    let st2 := (st1.setActive session).writeTimeBestEffort session nowStamp
    let (ok, _, g1) := e.run (GitCmd.checkoutDetach commit) g
    if ok then ⟨st2, g1, 0, t ++ [GitCmd.checkoutDetach commit], []⟩
    else ⟨st2, g1, 1, t ++ [GitCmd.checkoutDetach commit], []⟩

/-- `cmd_checkout` (kaishaku.c:280-327), the open operation: ensure the
session directory, capture the current branch into the `session` record,
resolve the commit (defaulting to `git rev-parse HEAD`), record it, set the
active pointer, stamp the time, and detach the working tree.  No check that
the session already exists is made anywhere: an existing directory is reused
and its records are overwritten.  All paths here are computed immediately
before use, so the static-buffer aliasing has no effect in this function. -/
def cmd_checkout {γ : Type} (session : String) (commit? : Option String) (st : Store)
    (e : GitExec γ) (g : γ) : Res γ :=
  let st0 := st.ensureDir session
  let (ok, currentBranch, g1) := e.run GitCmd.revParseAbbrevHead g
  if !ok then ⟨st0, g1, 1, [GitCmd.revParseAbbrevHead], []⟩
  else
    match st0.writeSessionFile session currentBranch with
    | none => ⟨st0, g1, 1, [GitCmd.revParseAbbrevHead], []⟩
    | some st1 =>
      match commit? with
      | some c => cmd_checkout_rest session c st1 e g1 [GitCmd.revParseAbbrevHead]
      | none =>
        let (ok2, headHash, g2) := e.run GitCmd.revParseHead g1
        if !ok2 then ⟨st1, g2, 1, [GitCmd.revParseAbbrevHead, GitCmd.revParseHead], []⟩
        else cmd_checkout_rest session headHash st1 e g2
          [GitCmd.revParseAbbrevHead, GitCmd.revParseHead]

/-- `cmd_switch` (kaishaku.c:329-356), the resume operation: read the `head`
record (error when absent), set the active pointer, stamp the time, then run
`git checkout <head> --detach` — unconditionally detached, with no special
case for the sentinel value HEAD. -/
def cmd_switch {γ : Type} (session : String) (st : Store) (e : GitExec γ) (g : γ) : Res γ :=
  match st.readHead session with
  | none => ⟨st, g, 1, [], []⟩
  | some targetHead =>
    let st1 := (st.setActive session).writeTimeBestEffort session nowStamp
    let (ok, _, g1) := e.run (GitCmd.checkoutDetach targetHead) g
    if ok then ⟨st1, g1, 0, [GitCmd.checkoutDetach targetHead], []⟩
    else ⟨st1, g1, 1, [GitCmd.checkoutDetach targetHead], []⟩

/-- `cmd_branch` (kaishaku.c:358-387): require an active session, create a
branch at the current position, then rewrite the active session head record
to the sentinel "HEAD". -/
def cmd_branch {γ : Type} (branchName : String) (st : Store) (e : GitExec γ) (g : γ) : Res γ :=
  match st.active with
  | none => ⟨st, g, 1, [], []⟩
  | some session =>
    let (ok, _, g1) := e.run (GitCmd.checkoutNewBranch branchName) g
    if !ok then ⟨st, g1, 1, [GitCmd.checkoutNewBranch branchName], []⟩
    else
      match st.writeHead session "HEAD" with
      | none => ⟨st, g1, 1, [GitCmd.checkoutNewBranch branchName], []⟩
      | some st1 => ⟨st1, g1, 0, [GitCmd.checkoutNewBranch branchName], []⟩

/-- `cmd_save` (kaishaku.c:389-447), the save-back operation.  Choreography:
create the temp branch at the current position, check out the original
branch, merge the temp branch.  On merge failure (lines 427-435): best-effort
`git checkout <temp>` followed by best-effort `git branch -D <temp>` — the
source force-deletes the temp branch here; only a successful checkout of it
makes the delete fail — then error exit.  On success: force-delete the temp
branch (warning if that fails).  Aliasing note (read buffer): after the read
at line 404 the `session` pointer denotes the original-branch string, so the
final head/time writes (lines 443-444) target the directory named after the
original branch, best-effort; the head record of the actual session is NOT
rewritten. -/
def cmd_save {γ : Type} (branchName : String) (st : Store) (e : GitExec γ) (g : γ) : Res γ :=
  match st.active with
  | none => ⟨st, g, 1, [], []⟩
  | some session =>
    match st.readSession session with
    | none => ⟨st, g, 1, [], []⟩
    | some originalBranch =>
      let (ok1, _, g1) := e.run (GitCmd.checkoutNewBranch branchName) g
      let t1 := [GitCmd.checkoutNewBranch branchName]
      if !ok1 then ⟨st, g1, 1, t1, []⟩
      else
        let (ok2, _, g2) := e.run (GitCmd.checkoutBranch originalBranch) g1
        let t2 := t1 ++ [GitCmd.checkoutBranch originalBranch]
        if !ok2 then ⟨st, g2, 1, t2, []⟩
        else
          let (ok3, _, g3) := e.run (GitCmd.merge branchName) g2
          let t3 := t2 ++ [GitCmd.merge branchName]
          if !ok3 then
            let (_, _, g4) := e.run (GitCmd.checkoutBranch branchName) g3
            let (_, _, g5) := e.run (GitCmd.branchDeleteForce branchName) g4
            ⟨st, g5, 1,
              t3 ++ [GitCmd.checkoutBranch branchName, GitCmd.branchDeleteForce branchName], []⟩
          else
            let (ok4, _, g4) := e.run (GitCmd.branchDeleteForce branchName) g3
            let ev := if ok4 then [] else [Msg.warnDeleteTemp branchName]
            let st1 := (st.writeHeadBestEffort originalBranch "HEAD").writeTimeBestEffort
              originalBranch nowStamp
            ⟨st1, g4, 0, t3 ++ [GitCmd.branchDeleteForce branchName], ev⟩

/-- CLI exit options, as parsed at kaishaku.c:467-470.  An unrecognized
option string sets no flag. -/
structure ExitFlags where
  force : Bool
  keep : Bool
  save : Bool
  noSave : Bool
deriving Repr, DecidableEq

def parseExitOption (opt : Option String) : ExitFlags :=
  ⟨opt == some "--force", opt == some "--keep", opt == some "--save", opt == some "--no-save"⟩

/-- The three configuration booleans (kaishaku.c:119-123), loaded once per
invocation by `load_config`. -/
structure Config where
  confirm_exit : Bool
  auto_stash : Bool
  auto_save : Bool
deriving Repr, DecidableEq

/-- Disposition resolution in `cmd_exit` (kaishaku.c:472-481): `auto_save`
forces the save flag unless `--no-save` was passed; `auto_stash` then forces
the keep flag unless the (possibly forced) save flag or `--force` holds. -/
def resolveExitFlags (cfg : Config) (f : ExitFlags) : ExitFlags :=
  let saveR := f.save || (cfg.auto_save && !f.noSave)
  let keepR := f.keep || (cfg.auto_stash && !saveR && !f.force)
  ⟨f.force, keepR, saveR, f.noSave⟩

/-- Final step of `cmd_exit` (kaishaku.c:544-555): `git checkout <original>`,
then remove the active pointer.  Session records are never touched. -/
def cmd_exit_final {γ : Type} (originalBranch : String) (st : Store) (e : GitExec γ)
    (g : γ) (t : List GitCmd) (ev : List Msg) : Res γ :=
  let (ok, _, g1) := e.run (GitCmd.checkoutBranch originalBranch) g
  if ok then ⟨st.clearActive, g1, 0, t ++ [GitCmd.checkoutBranch originalBranch], ev⟩
  else ⟨st, g1, 1, t ++ [GitCmd.checkoutBranch originalBranch], ev⟩

/-- Change handling in `cmd_exit` (kaishaku.c:499-542).  Aliasing note (read
buffer): the commit and stash messages interpolate the `session` pointer,
which at this point denotes the original-branch string (the read at line 461
overwrote the buffer); this is reflected in the `msgName` argument and is
cosmetic.  A stash failure degrades to a warning and the exit proceeds. -/
def cmd_exit_changes {γ : Type} (originalBranch : String) (f : ExitFlags) (hasChanges : Bool)
    (st : Store) (e : GitExec γ) (g : γ) (t : List GitCmd) : Res γ :=
  if hasChanges then
    if f.save then
      let (ok, _, g1) := e.run (GitCmd.commitSave originalBranch) g
      let t1 := t ++ [GitCmd.commitSave originalBranch]
      if !ok then ⟨st, g1, 1, t1, []⟩
      else cmd_exit_final originalBranch st e g1 t1 []
    else if f.keep then
      let (ok, _, g1) := e.run (GitCmd.stashPush originalBranch) g
      let t1 := t ++ [GitCmd.stashPush originalBranch]
      let ev := if ok then [] else [Msg.warnStash]
      cmd_exit_final originalBranch st e g1 t1 ev
    else
      let (ok, _, g1) := e.run GitCmd.resetHard g
      let t1 := t ++ [GitCmd.resetHard]
      if !ok then ⟨st, g1, 1, t1, []⟩
      else cmd_exit_final originalBranch st e g1 t1 []
  else cmd_exit_final originalBranch st e g t []

/-- `cmd_exit` (kaishaku.c:449-556): require an active session with a
readable `session` record, resolve the disposition flags, probe for
uncommitted changes via `git status --porcelain` (a failing or silent probe
counts as no changes), optionally prompt — a first input character other than
y/Y prints Aborted and exits 0 with nothing else done — then handle changes
and finish by checking out the original branch and clearing the pointer. -/
def cmd_exit {γ : Type} (opt : Option String) (cfg : Config) (stdinChar : Char) (st : Store)
    (e : GitExec γ) (g : γ) : Res γ :=
  match st.active with
  | none => ⟨st, g, 1, [], []⟩
  | some session =>
    match st.readSession session with
    | none => ⟨st, g, 1, [], []⟩
    | some originalBranch =>
      let f := resolveExitFlags cfg (parseExitOption opt)
      let (stOk, changesOut, g1) := e.run GitCmd.statusPorcelain g
      let hasChanges := stOk && !(changesOut == "")
      if !f.force && !f.keep && !f.save && cfg.confirm_exit && hasChanges
          && !(stdinChar == 'y') && !(stdinChar == 'Y') then
        ⟨st, g1, 0, [GitCmd.statusPorcelain], [Msg.abortedPrompt]⟩
      else
        cmd_exit_changes originalBranch f hasChanges st e g1 [GitCmd.statusPorcelain]

/-- Named branch of `cmd_clean` (kaishaku.c:712-733).  Aliasing note (path
buffer): `session_file` and `head_file` (lines 720-721) both denote the head
path, so the first unlink removes the head record (if present) and the second
unlink of the same path then fails, taking the error exit; when the head
record is absent the first unlink fails immediately.  Either way the command
exits 1 and at most the head record is removed; the rmdir is never reached. -/
def cmd_clean_named (s : String) (st : Store) : Res Unit :=
  if !(st.dirExists s) then ⟨st, (), 1, [], []⟩
  else
    match st.readHead s with
    | some _ => ⟨st.removeHeadFile s, (), 1, [], []⟩
    | none => ⟨st, (), 1, [], []⟩

/-- Sweep branch of `cmd_clean` (kaishaku.c:734-780), reached only when no
active pointer exists.  Per non-dotfile session: both unlinks target the head
path (first removes the head record, second fails silently), the rmdir
targets the stale head path and fails silently, and the counter is
incremented regardless. -/
def cleanSweep (entries : List (String × SessionDir)) (st : Store) : Store × Nat :=
  match entries with
  | [] => (st, 0)
  | (name, _) :: rest =>
    if dotName name then cleanSweep rest st
    else
      let (st1, n) := cleanSweep rest (st.removeHeadFile name)
      (st1, n + 1)

/-- `cmd_clean` (kaishaku.c:696-781), the purge operation: refuse when an
active pointer exists and either no name was given or it names the active
session; otherwise run the named removal or the sweep. -/
def cmd_clean (arg : Option String) (st : Store) : Res Unit :=
  match st.active with
  | some a =>
    match arg with
    | none => ⟨st, (), 1, [], []⟩
    | some s =>
      if s = a then ⟨st, (), 1, [], []⟩
      else cmd_clean_named s st
  | none =>
    match arg with
    | some s => cmd_clean_named s st
    | none =>
      let (st1, n) := cleanSweep st.sessions st
      ⟨st1, (), 0, [], [Msg.cleanedCount n]⟩

/-- Tail of `cmd_recover` (kaishaku.c:946-961): set the active pointer, then
`git checkout <head> --detach` — unconditionally detached. -/
def cmd_recover_final {γ : Type} (session head : String) (st : Store) (e : GitExec γ)
    (g : γ) (t : List GitCmd) (ev : List Msg) : Res γ :=
  let st1 := st.setActive session
  let (ok, _, g1) := e.run (GitCmd.checkoutDetach head) g
  if ok then ⟨st1, g1, 0, t ++ [GitCmd.checkoutDetach head], ev⟩
  else ⟨st1, g1, 1, t ++ [GitCmd.checkoutDetach head], ev⟩

/-- `cmd_recover` (kaishaku.c:891-962).  Aliasing notes: the corruption check
(lines 917-924) computes both record paths into the shared path buffer, so
both `file_exists` calls test the head path — only the head record is
actually required, a missing `session` record goes undetected.  Both reads at
lines 926-927 then read the head path, so `original_branch` denotes the head
value: the verify (and the fallback branch creation) operate on the head
value, never on the recorded original ref. -/
def cmd_recover {γ : Type} (session : String) (st : Store) (e : GitExec γ) (g : γ) : Res γ :=
  if !(st.dirExists session) then ⟨st, g, 1, [], []⟩
  else if st.active == some session then ⟨st, g, 1, [], []⟩
  else
    match st.readHead session with
    | none => ⟨st, g, 1, [], []⟩
    | some head =>
      let (okv, _, g1) := e.run (GitCmd.revParseVerify head) g
      let t1 := [GitCmd.revParseVerify head]
      if okv then cmd_recover_final session head st e g1 t1 []
      else
        let (okc, _, g2) := e.run (GitCmd.checkoutNewBranch head) g1
        let t2 := t1 ++ [GitCmd.checkoutNewBranch head]
        if !okc then ⟨st, g2, 1, t2, [Msg.warnMissingBranch head]⟩
        else cmd_recover_final session head st e g2 t2 [Msg.warnMissingBranch head]

/-- `cmd_rename` (kaishaku.c:964-1005).  Aliasing note (path buffer):
`old_dir` and `new_dir` (lines 973-974) both denote the NEW directory path,
so the not-found check at line 976 tests the new name and the already-exists
check at line 981 also tests the new name: the command always exits 1 (not
found when the new directory is absent, already exists when it is present)
and never renames anything. -/
def cmd_rename (oldName newName : String) (st : Store) : Res Unit :=
  if !(st.dirExists newName) then ⟨st, (), 1, [], []⟩
  else ⟨st, (), 1, [], []⟩

/-- Core of `cmd_abort` (kaishaku.c:1026-1062) after the target session name
has been resolved.  If the target is the active session and its `session`
record is readable, check out the original branch (fatal on failure) and
remove the active pointer; when the record is missing this whole block —
including the removal of the active pointer — is skipped.  Aliasing note
(path buffer): the four record paths (lines 1051-1054) all denote the desc
path, so the four unlinks remove at most the desc record, and the rmdir
(line 1060) targets the stale desc path and always fails silently: no record
directory is ever removed.  In the no-argument case the `session` pointer was
redirected to the original-branch string by the read at line 1036, so the
stale cleanup targets the directory named after the original branch. -/
def cmd_abort_core {γ : Type} (arg : Option String) (session : String) (st : Store)
    (e : GitExec γ) (g : γ) : Res γ :=
  if !(st.dirExists session) then ⟨st, g, 1, [], []⟩
  else
    if st.active == some session then
      match st.readSession session with
      | some originalBranch =>
        let (ok, _, g1) := e.run (GitCmd.checkoutBranch originalBranch) g
        if !ok then ⟨st, g1, 1, [GitCmd.checkoutBranch originalBranch], []⟩
        else
          let staleName := arg.getD originalBranch
          ⟨(st.clearActive).removeDesc staleName, g1, 0,
            [GitCmd.checkoutBranch originalBranch], []⟩
      | none =>
        let staleName := arg.getD session
        ⟨st.removeDesc staleName, g, 0, [], []⟩
    else
      let staleName := arg.getD session
      ⟨st.removeDesc staleName, g, 0, [], []⟩

/-- `cmd_abort` (kaishaku.c:1007-1063): default the target to the active
session when no argument is given (error when there is none). -/
def cmd_abort {γ : Type} (arg : Option String) (st : Store) (e : GitExec γ) (g : γ) : Res γ :=
  match arg with
  | some session => cmd_abort_core (some session) session st e g
  | none =>
    match st.active with
    | none => ⟨st, g, 1, [], []⟩
    | some session => cmd_abort_core none session st e g

/-- One line of the session listing produced by `cmd_list`, with the
"(missing)" annotations on the two ref lines. -/
structure ListedSession where
  name : String
  isActive : Bool
  branchMissing : Bool
  commitMissing : Bool
deriving Repr, DecidableEq

/-- Result of `cmd_list`: the printed entries in enumeration order, the names
warned about as corrupted, and the exit code. -/
structure ListRes where
  entries : List ListedSession
  corrupted : List String
  code : Nat
deriving Repr, DecidableEq

/-- Per-entry body of the `cmd_list` loop (kaishaku.c:626-687).  Aliasing
notes: the two record paths (lines 633-634) both denote the head path, so the
corruption check tests only the head record — a session missing only its
`session` record is NOT excluded and NOT warned about.  Both reads at lines
644-645 then yield the head value, so both `git rev-parse --verify` probes
(lines 653-661) verify the head value; the recorded original ref is never
verified, and both "(missing)" annotations reflect the head probe. -/
def listEntries (f : GitCmd → Bool × String) (active : Option String) :
    List (String × SessionDir) → List ListedSession × List String
  | [] => ([], [])
  | (name, d) :: rest =>
    let (es, ws) := listEntries f active rest
    if dotName name then (es, ws)
    else
      match d.headFile with
      | none => (es, name :: ws)
      | some head =>
        let v := (f (GitCmd.revParseVerify head)).1
        (⟨name, active == some name, !v, !v⟩ :: es, ws)

/-- `cmd_list` (kaishaku.c:595-694): enumerate the session directories,
warn about (and skip) corrupted entries, list the rest with their
annotations.  The command never exits nonzero on a per-session basis. -/
def cmd_list (st : Store) (f : GitCmd → Bool × String) : ListRes :=
  let (es, ws) := listEntries f st.active st.sessions
  ⟨es, ws, 0⟩

/-! ### Library lemmas about the record store -/

theorem findIn_cons (n : String) (d : SessionDir) (rest : List (String × SessionDir))
    (s : String) : findIn ((n, d) :: rest) s = if n = s then some d else findIn rest s := rfl

theorem findIn_updateAt (l : List (String × SessionDir)) (s : String)
    (f : SessionDir → SessionDir) :
    findIn (l.map (fun p => if p.1 = s then (p.1, f p.2) else p)) s = (findIn l s).map f := by
  induction l with
  | nil => rfl
  | cons p rest ih =>
    obtain ⟨n, d⟩ := p
    simp only [List.map_cons]
    by_cases h : n = s
    · rw [if_pos h, findIn_cons, findIn_cons, if_pos h, if_pos h]
      rfl
    · rw [if_neg h, findIn_cons, findIn_cons, if_neg h, if_neg h]
      exact ih

theorem findIn_updateAt_ne (l : List (String × SessionDir)) (s r : String)
    (f : SessionDir → SessionDir) (h : r ≠ s) :
    findIn (l.map (fun p => if p.1 = s then (p.1, f p.2) else p)) r = findIn l r := by
  induction l with
  | nil => rfl
  | cons p rest ih =>
    obtain ⟨n, d⟩ := p
    simp only [List.map_cons]
    by_cases hp : n = s
    · have hnr : n ≠ r := fun hh => h (hh ▸ hp)
      rw [if_pos hp, findIn_cons, findIn_cons, if_neg hnr, if_neg hnr]
      exact ih
    · rw [if_neg hp, findIn_cons, findIn_cons]
      by_cases hr : n = r
      · rw [if_pos hr, if_pos hr]
      · rw [if_neg hr, if_neg hr]
        exact ih

theorem find_updateDir (st : Store) (s : String) (f : SessionDir → SessionDir) :
    (st.updateDir s f).find s = (st.find s).map f := by
  simp [Store.find, Store.updateDir, findIn_updateAt]

theorem find_updateDir_ne (st : Store) (s r : String) (f : SessionDir → SessionDir)
    (h : r ≠ s) : (st.updateDir s f).find r = st.find r := by
  simp [Store.find, Store.updateDir, findIn_updateAt_ne _ _ _ _ h]

theorem dirExists_updateDir (st : Store) (s r : String) (f : SessionDir → SessionDir) :
    (st.updateDir s f).dirExists r = st.dirExists r := by
  by_cases h : r = s
  · subst h; simp [Store.dirExists, find_updateDir]
  · simp [Store.dirExists, find_updateDir_ne _ _ _ _ h]

theorem dirExists_of_readHead (st : Store) (s h : String) (hr : st.readHead s = some h) :
    st.dirExists s = true := by
  unfold Store.readHead at hr
  unfold Store.dirExists
  cases hf : st.find s with
  | none => rw [hf] at hr; simp at hr
  | some d => simp

theorem dirExists_of_readSession (st : Store) (s o : String)
    (hr : st.readSession s = some o) : st.dirExists s = true := by
  unfold Store.readSession at hr
  unfold Store.dirExists
  cases hf : st.find s with
  | none => rw [hf] at hr; simp at hr
  | some d => simp

theorem active_updateDir (st : Store) (s : String) (f : SessionDir → SessionDir) :
    (st.updateDir s f).active = st.active := rfl

theorem find_setActive (st : Store) (s r : String) :
    (st.setActive s).find r = st.find r := rfl

theorem active_setActive (st : Store) (s : String) :
    (st.setActive s).active = some s := rfl

theorem find_clearActive (st : Store) (r : String) :
    st.clearActive.find r = st.find r := rfl

theorem sessions_setActive (st : Store) (s : String) :
    (st.setActive s).sessions = st.sessions := rfl

theorem sessions_clearActive (st : Store) :
    st.clearActive.sessions = st.sessions := rfl

/-! ### Concrete fixtures used by the claim theorems -/

/-- A git environment in which every command succeeds with empty output. -/
def fOk : GitCmd → Bool × String := fun _ => (true, "")

/-- A git environment for the open counterexample: the current branch reads
back as dev, the current head as c2, everything succeeds. -/
def fOpen : GitCmd → Bool × String
  | GitCmd.revParseAbbrevHead => (true, "dev")
  | GitCmd.revParseHead => (true, "c2")
  | _ => (true, "")

/-- A git environment for the lifecycle run: current branch main, current
head c1, everything succeeds. -/
def fMain : GitCmd → Bool × String
  | GitCmd.revParseAbbrevHead => (true, "main")
  | GitCmd.revParseHead => (true, "c1")
  | _ => (true, "")

/-- A git environment in which only the ref c1 verifies. -/
def fVerifyC1 : GitCmd → Bool × String
  | GitCmd.revParseVerify r => (r == "c1", "")
  | _ => (true, "")

/-- A git environment reporting a dirty working tree; everything succeeds. -/
def fDirty : GitCmd → Bool × String
  | GitCmd.statusPorcelain => (true, "M x")
  | _ => (true, "")

/-- A store holding one well-formed inactive session s started from main at
commit c1 (the state `cmd_checkout` produces, after exit). -/
def stOne : Store := ⟨[("s", ⟨some "main", some "c1", some "t0", none⟩)], none⟩

/-- The same session s, currently active. -/
def stOneActive : Store := ⟨[("s", ⟨some "main", some "c1", some "t0", none⟩)], some "s"⟩

/-- A session s whose head record holds the sentinel value HEAD (the state
`cmd_branch`/`cmd_save` are meant to leave behind). -/
def stSentinel : Store := ⟨[("s", ⟨some "main", some "HEAD", some "t0", none⟩)], none⟩

/-- Registry with a session x missing only its `session` (original ref)
record, and a well-formed session y whose recorded original ref gone does
not resolve while its head c1 does. -/
def stList : Store :=
  ⟨[("x", ⟨none, some "c1", none, none⟩), ("y", ⟨some "gone", some "c1", none, none⟩)], none⟩

/-! ### A small git repository semantics for the save-back choreography -/

/-- Abstract git repository state: the existing branch names, the checked-out
ref (`some b` = on branch b, `none` = detached), and whether the working tree
holds unresolved merge conflicts. -/
structure Repo where
  branches : List String
  cur : Option String
  conflict : Bool
deriving Repr, DecidableEq

/-- Outcome of the one merge command a `cmd_save` run issues. -/
inductive MergeRes where
  | ok
  | failConflict
  | failClean
deriving Repr, DecidableEq

/-- Git semantics for the commands `cmd_save` issues: `checkout -b` fails on
an existing name or a conflicted tree, otherwise creates and switches;
`checkout` fails on an unknown branch or a conflicted tree; `merge` behaves
as prescribed by `mres`, a conflicting failure leaving unresolved paths
behind; `branch -D` fails on an unknown name or on the currently checked-out
branch, otherwise deletes. -/
def repoStep (mres : MergeRes) (c : GitCmd) (r : Repo) : Bool × String × Repo :=
  match c with
  | GitCmd.checkoutNewBranch n =>
    if r.branches.contains n || r.conflict then (false, "", r)
    else (true, "", ⟨n :: r.branches, some n, r.conflict⟩)
  | GitCmd.checkoutBranch b =>
    if !(r.branches.contains b) || r.conflict then (false, "", r)
    else (true, "", ⟨r.branches, some b, r.conflict⟩)
  | GitCmd.merge _ =>
    match mres with
    | MergeRes.ok => (true, "", r)
    | MergeRes.failConflict => (false, "", ⟨r.branches, r.cur, true⟩)
    | MergeRes.failClean => (false, "", r)
  | GitCmd.branchDeleteForce n =>
    if !(r.branches.contains n) || r.cur == some n then (false, "", r)
    else (true, "", ⟨r.branches.filter (fun b => !(b == n)), r.cur, r.conflict⟩)
  | GitCmd.checkoutDetach _ =>
    if r.conflict then (false, "", r) else (true, "", ⟨r.branches, none, r.conflict⟩)
  | _ => (true, "", r)

/-- Executor driven by the repository semantics. -/
def repoExec (mres : MergeRes) : GitExec Repo := ⟨repoStep mres⟩

/-- Repository for the save-back runs: one branch main, working tree detached
(the session state), no conflicts. -/
def repoMain : Repo := ⟨["main"], none, false⟩

/-! ### C1 — save-back merge failure -/

/-- C1 counterexample: save-back of temp branch tmp from the active session s
(original ref main) when the merge fails leaving conflicts.  The recovery
checkout of tmp fails (conflicted tree), so the subsequent
`git branch -D tmp` issued by the failure path succeeds: afterwards the tmp
branch no longer exists and the working tree is still on main, not on tmp.
The claim requires the temp branch to be checked out and left intact. -/
theorem c1_counterexample :
    (cmd_save "tmp" stOneActive (repoExec MergeRes.failConflict) repoMain).code = 1
    ∧ (cmd_save "tmp" stOneActive (repoExec MergeRes.failConflict) repoMain).git.branches.contains
        "tmp" = false
    ∧ (cmd_save "tmp" stOneActive (repoExec MergeRes.failConflict) repoMain).git.cur
        = some "main" := by
  decide

theorem contains_filter_ne_self (l : List String) (a : String) :
    (l.filter (fun b => !(b == a))).contains a = false := by
  induction l with
  | nil => rfl
  | cons x xs ih =>
    by_cases h : x = a
    · subst h
      simp only [List.filter, beq_self_eq_true, Bool.not_true]
      exact ih
    · have hxa : (x == a) = false := beq_eq_false_iff_ne.mpr h
      have hax : (a == x) = false := beq_eq_false_iff_ne.mpr (Ne.symm h)
      simp only [List.filter, hxa, Bool.not_false, List.contains_cons, hax, Bool.false_or]
      exact ih

theorem active_writeTimeBestEffort (st : Store) (s v : String) :
    (st.writeTimeBestEffort s v).active = st.active := by
  unfold Store.writeTimeBestEffort
  by_cases hd : st.dirExists s = true
  · simp [hd, active_updateDir]
  · rw [Bool.not_eq_true] at hd
    simp [hd]

/-- C1 as amended: with the active session s recording original ref `orig`,
temp name `bn` fresh, `orig` an existing branch, a clean tree, on the three
merge outcomes cmd_save behaves as follows.  Clean merge: exit 0 and the temp
branch is deleted.  Merge failure without conflicts left behind: the recovery
checkout of the temp branch succeeds, so the force-delete that the failure
path then issues is refused (current branch) and the temp branch survives,
checked out, exit 1.  Merge failure with conflicts: the recovery checkout
fails, so the force-delete succeeds — the temp branch is deleted and the tree
stays on `orig`, exit 1. -/
theorem c1_amended (bn s orig : String) (st : Store) (r : Repo)
    (hact : st.active = some s) (horig : st.readSession s = some orig)
    (hbn : r.branches.contains bn = false) (ho : r.branches.contains orig = true)
    (hc : r.conflict = false) (hne : bn ≠ orig) :
    ((cmd_save bn st (repoExec MergeRes.ok) r).code = 0
      ∧ (cmd_save bn st (repoExec MergeRes.ok) r).git.branches.contains bn = false)
    ∧ ((cmd_save bn st (repoExec MergeRes.failClean) r).code = 1
      ∧ (cmd_save bn st (repoExec MergeRes.failClean) r).git.branches.contains bn = true
      ∧ (cmd_save bn st (repoExec MergeRes.failClean) r).git.cur = some bn)
    ∧ ((cmd_save bn st (repoExec MergeRes.failConflict) r).code = 1
      ∧ (cmd_save bn st (repoExec MergeRes.failConflict) r).git.branches.contains bn = false
      ∧ (cmd_save bn st (repoExec MergeRes.failConflict) r).git.cur = some orig) := by
  have hbnP : bn ∉ r.branches := by simpa using hbn
  have hoP : orig ∈ r.branches := by simpa using ho
  have hobP : ¬ (orig = bn) := Ne.symm hne
  refine ⟨⟨?_, ?_⟩, ⟨?_, ?_, ?_⟩, ⟨?_, ?_, ?_⟩⟩ <;>
    simp [cmd_save, hact, horig, repoExec, repoStep, hbnP, hoP, hc, hobP, hne]

/-- C1 amended witness at a concrete instance. -/
theorem c1_amended_witness :
    ((cmd_save "tmp" stOneActive (repoExec MergeRes.ok) repoMain).code = 0
      ∧ (cmd_save "tmp" stOneActive (repoExec MergeRes.ok) repoMain).git.branches.contains
          "tmp" = false)
    ∧ ((cmd_save "tmp" stOneActive (repoExec MergeRes.failClean) repoMain).code = 1
      ∧ (cmd_save "tmp" stOneActive (repoExec MergeRes.failClean) repoMain).git.branches.contains
          "tmp" = true
      ∧ (cmd_save "tmp" stOneActive (repoExec MergeRes.failClean) repoMain).git.cur
          = some "tmp")
    ∧ ((cmd_save "tmp" stOneActive (repoExec MergeRes.failConflict) repoMain).code = 1
      ∧ (cmd_save "tmp" stOneActive
          (repoExec MergeRes.failConflict) repoMain).git.branches.contains "tmp" = false
      ∧ (cmd_save "tmp" stOneActive (repoExec MergeRes.failConflict) repoMain).git.cur
          = some "main") :=
  c1_amended "tmp" "s" "main" stOneActive repoMain rfl rfl (by decide) (by decide) rfl
    (by decide)

/-! ### C3 — purge -/

/-- C3: refuted by the code.  `clean s` on the inactive session s holding the
three records `cmd_checkout` creates (session, head, time) exits 1 and
removes only the head record: both unlink calls in the source target the head
path (stale static path buffer), so the second always fails and takes the
error exit; the session and time records and the directory itself survive.
The claim says all four records and the directory are removed and the named
purge succeeds. -/
theorem c3_clean_bug :
    (cmd_clean (some "s") stOne).code = 1
    ∧ (cmd_clean (some "s") stOne).store.readHead "s" = none
    ∧ (cmd_clean (some "s") stOne).store.readSession "s" = some "main"
    ∧ (cmd_clean (some "s") stOne).store.readTime "s" = some "t0"
    ∧ (cmd_clean (some "s") stOne).store.dirExists "s" = true := by
  decide

/-! ### C9 — abort postcondition -/

/-- C9: refuted by the code.  With s active and well-formed, `abort` with no
argument checks out the original branch and clears the active pointer, and at
this input coincides exactly with `abort s` — but the record directory for s
still exists afterwards with all its records intact: the four unlink calls
and the rmdir in the source all operate on a single stale desc path, so
nothing is removed.  The claim says the record directory no longer exists. -/
theorem c9_abort_bug :
    (cmd_abort none stOneActive (pureExec fOk) ()).code = 0
    ∧ (cmd_abort none stOneActive (pureExec fOk) ()).store.active = none
    ∧ (cmd_abort none stOneActive (pureExec fOk) ()).store.dirExists "s" = true
    ∧ (cmd_abort none stOneActive (pureExec fOk) ()).store.readSession "s" = some "main"
    ∧ (cmd_abort none stOneActive (pureExec fOk) ()).store.readHead "s" = some "c1"
    ∧ (cmd_abort none stOneActive (pureExec fOk) ()).store.readTime "s" = some "t0"
    ∧ cmd_abort none stOneActive (pureExec fOk) ()
        = cmd_abort (some "s") stOneActive (pureExec fOk) () := by
  decide

/-! ### C5 — active-pointer invariant -/

/-- C5: refuted by the code.  Starting from an empty registry: open s (all
git commands succeed, current branch main, head c1), then abort the active
session — it exits 0 and clears the pointer but, because every cleanup path
is stale, leaves all records of s in place — then resume s, which succeeds
against the surviving records and re-activates s.  The final active pointer
names a session that has already been successfully aborted, violating the
claimed invariant that the pointer only ever names a not-yet-purged,
not-yet-aborted session. -/
theorem c5_aborted_session_reactivated :
    (cmd_checkout "s" none ⟨[], none⟩ (pureExec fMain) ()).code = 0
    ∧ (cmd_abort none (cmd_checkout "s" none ⟨[], none⟩ (pureExec fMain) ()).store
        (pureExec fMain) ()).code = 0
    ∧ (cmd_abort none (cmd_checkout "s" none ⟨[], none⟩ (pureExec fMain) ()).store
        (pureExec fMain) ()).store.active = none
    ∧ (cmd_switch "s" (cmd_abort none
          (cmd_checkout "s" none ⟨[], none⟩ (pureExec fMain) ()).store
          (pureExec fMain) ()).store (pureExec fMain) ()).code = 0
    ∧ (cmd_switch "s" (cmd_abort none
          (cmd_checkout "s" none ⟨[], none⟩ (pureExec fMain) ()).store
          (pureExec fMain) ()).store (pureExec fMain) ()).store.active = some "s" := by
  decide

/-! ### C8 — list corruption handling -/

/-- C8: refuted by the code.  In `stList`, session x is missing its
original-ref record, yet `list` prints it as a normal entry with no
corruption warning (both existence checks in the source test the head path),
and session y, whose recorded original ref gone does not resolve, carries no
"(missing)" annotation on either line because both verify probes run on the
head value c1, which resolves.  The claim says x is excluded and warned
about, and that the unresolvable original ref of y is flagged. -/
theorem c8_list_bug :
    (cmd_list stList fVerifyC1).code = 0
    ∧ (cmd_list stList fVerifyC1).entries
        = [⟨"x", false, false, false⟩, ⟨"y", false, false, false⟩]
    ∧ (cmd_list stList fVerifyC1).corrupted = [] := by
  decide

/-! ### C2 — open on an existing session -/

/-- C2 counterexample: open of the name s, which is already a well-formed
session (original ref main, head c1), does not fail: it exits 0, overwrites
the session records with the current branch dev and freshly resolved commit
c2, and re-activates s.  The claim requires a nonzero exit and unchanged
records. -/
theorem c2_counterexample :
    (cmd_checkout "s" none stOne (pureExec fOpen) ()).code = 0
    ∧ (cmd_checkout "s" none stOne (pureExec fOpen) ()).store.readSession "s" = some "dev"
    ∧ (cmd_checkout "s" none stOne (pureExec fOpen) ()).store.readHead "s" = some "c2"
    ∧ (cmd_checkout "s" none stOne (pureExec fOpen) ()).store.active = some "s" := by
  decide

/-- C2 as amended: open of a name that is already a well-formed session does
NOT fail.  When all git commands succeed, it exits 0, overwrites the
`session` record with the currently captured branch and the `head` record
with the requested commit, and re-activates the session — the precondition
claimed by the spec is simply never checked by the code. -/
theorem c2_amended (name commit o0 h0 : String) (st : Store) (f : GitCmd → Bool × String)
    (h1 : st.readSession name = some o0) (h2 : st.readHead name = some h0)
    (hg : ∀ c, (f c).1 = true) :
    (cmd_checkout name (some commit) st (pureExec f) ()).code = 0
    ∧ (cmd_checkout name (some commit) st (pureExec f) ()).store.readSession name
        = some (f GitCmd.revParseAbbrevHead).2
    ∧ (cmd_checkout name (some commit) st (pureExec f) ()).store.readHead name = some commit
    ∧ (cmd_checkout name (some commit) st (pureExec f) ()).store.active = some name := by
  obtain ⟨d0, hf⟩ : ∃ d, st.find name = some d := by
    unfold Store.readSession at h1
    cases hfind : st.find name with
    | none => rw [hfind] at h1; simp at h1
    | some d => exact ⟨d, rfl⟩
  simp [cmd_checkout, cmd_checkout_rest, pureExec, hg, Store.ensureDir,
    Store.writeSessionFile, Store.writeHead, Store.writeTimeBestEffort,
    Store.dirExists, Store.readSession, Store.readHead, find_updateDir, active_updateDir,
    find_setActive, active_setActive, hf, SessionDir.setSession, SessionDir.setHead,
    SessionDir.setTime]

/-- C2 amended witness at a concrete instance. -/
theorem c2_amended_witness :
    (cmd_checkout "s" (some "c9") stOne (pureExec fOpen) ()).code = 0
    ∧ (cmd_checkout "s" (some "c9") stOne (pureExec fOpen) ()).store.readSession "s"
        = some (fOpen GitCmd.revParseAbbrevHead).2
    ∧ (cmd_checkout "s" (some "c9") stOne (pureExec fOpen) ()).store.readHead "s" = some "c9"
    ∧ (cmd_checkout "s" (some "c9") stOne (pureExec fOpen) ()).store.active = some "s" :=
  c2_amended "s" "c9" "main" "c1" stOne fOpen rfl rfl (fun c => by cases c <;> rfl)

/-! ### C4 — sentinel handling on resume -/

/-- C4 counterexample: resuming the session s whose head record is the
sentinel value HEAD issues exactly the detached checkout command
`git checkout HEAD --detach` — no branch (non-detached) checkout is ever
issued, contrary to the claimed sentinel special case. -/
theorem c4_counterexample :
    (cmd_switch "s" stSentinel (pureExec fOk) ()).trace = [GitCmd.checkoutDetach "HEAD"]
    ∧ (cmd_switch "s" stSentinel (pureExec fOk) ()).code = 0
    ∧ (cmd_switch "s" stSentinel (pureExec fOk) ()).store.active = some "s" := by
  decide

/-- C4 as amended: resume sets the active pointer and always checks out the
head record detached — including when it holds the sentinel value HEAD, which
is given no special treatment — and recover (for a not-currently-active
session whose head record verifies) likewise always issues the detached
checkout of the head value. -/
theorem c4_amended (s h : String) (st : Store) (f : GitCmd → Bool × String)
    (hh : st.readHead s = some h) (hna : st.active ≠ some s)
    (hv : (f (GitCmd.revParseVerify h)).1 = true) :
    (cmd_switch s st (pureExec f) ()).trace = [GitCmd.checkoutDetach h]
    ∧ (cmd_switch s st (pureExec f) ()).store.active = some s
    ∧ (cmd_recover s st (pureExec f) ()).trace
        = [GitCmd.revParseVerify h, GitCmd.checkoutDetach h]
    ∧ (cmd_recover s st (pureExec f) ()).store.active = some s := by
  have hd : st.dirExists s = true := dirExists_of_readHead st s h hh
  have hbeq : (st.active == some s) = false := beq_eq_false_iff_ne.mpr hna
  refine ⟨?_, ?_, ?_, ?_⟩ <;>
    cases hdet : (f (GitCmd.checkoutDetach h)).1 <;>
      simp [cmd_switch, cmd_recover, cmd_recover_final, pureExec, hh, hd, hbeq, hv, hdet,
        active_writeTimeBestEffort, Store.setActive]

/-- C4 amended witness at a concrete instance. -/
theorem c4_amended_witness :
    (cmd_switch "s" stSentinel (pureExec fOk) ()).trace = [GitCmd.checkoutDetach "HEAD"]
    ∧ (cmd_switch "s" stSentinel (pureExec fOk) ()).store.active = some "s"
    ∧ (cmd_recover "s" stSentinel (pureExec fOk) ()).trace
        = [GitCmd.revParseVerify "HEAD", GitCmd.checkoutDetach "HEAD"]
    ∧ (cmd_recover "s" stSentinel (pureExec fOk) ()).store.active = some "s" :=
  c4_amended "s" "HEAD" stSentinel fOk rfl (by decide) rfl

/-! ### C6 — exit disposition resolution -/

/-- C6: in `cmd_exit` the disposition of uncommitted changes is resolved in
the claimed order: the `auto_save` configuration flag forces the save
disposition unless the no-save option was requested; otherwise the
`auto_stash` flag forces the keep disposition unless the save or force option
was requested. -/
theorem c6_exit_disposition (cfg : Config) (opt : Option String) :
    ((cfg.auto_save = true ∧ opt ≠ some "--no-save") →
      (resolveExitFlags cfg (parseExitOption opt)).save = true)
    ∧ (¬ (cfg.auto_save = true ∧ opt ≠ some "--no-save") →
      (cfg.auto_stash = true ∧ opt ≠ some "--save" ∧ opt ≠ some "--force") →
      (resolveExitFlags cfg (parseExitOption opt)).keep = true) := by
  constructor
  · rintro ⟨h1, h2⟩
    have hns : (opt == some "--no-save") = false := beq_eq_false_iff_ne.mpr h2
    simp [resolveExitFlags, parseExitOption, h1, hns]
  · rintro hn ⟨hstash, hs, hf⟩
    have hsb : (opt == some "--save") = false := beq_eq_false_iff_ne.mpr hs
    have hfb : (opt == some "--force") = false := beq_eq_false_iff_ne.mpr hf
    push_neg at hn
    by_cases hA : cfg.auto_save = true
    · have hO : opt = some "--no-save" := hn hA
      subst hO
      have hp : parseExitOption (some "--no-save") = ⟨false, false, false, true⟩ := by decide
      rw [hp]
      simp [resolveExitFlags, hstash, hA]
    · rw [Bool.not_eq_true] at hA
      simp [resolveExitFlags, parseExitOption, hstash, hA, hsb, hfb]

/-- C6 witness at concrete configurations. -/
theorem c6_exit_disposition_witness :
    (resolveExitFlags ⟨false, false, true⟩ (parseExitOption none)).save = true
    ∧ (resolveExitFlags ⟨false, true, false⟩ (parseExitOption none)).keep = true :=
  ⟨(c6_exit_disposition ⟨false, false, true⟩ none).1 ⟨rfl, by decide⟩,
   (c6_exit_disposition ⟨false, true, false⟩ none).2 (by decide) ⟨rfl, by decide, by decide⟩⟩

/-! ### C7 — exit final effect and frame -/

theorem cmd_exit_final_spec {γ : Type} (orig : String) (st : Store) (e : GitExec γ) (g : γ)
    (t : List GitCmd) (ev : List Msg)
    (h : (cmd_exit_final orig st e g t ev).code = 0) :
    (cmd_exit_final orig st e g t ev).store.sessions = st.sessions
    ∧ (cmd_exit_final orig st e g t ev).store.active = none
    ∧ GitCmd.checkoutBranch orig ∈ (cmd_exit_final orig st e g t ev).trace := by
  rcases hEq : e.run (GitCmd.checkoutBranch orig) g with ⟨ok, out, g1⟩
  cases ok
  · simp [cmd_exit_final, hEq] at h
  · simp [cmd_exit_final, hEq, Store.clearActive]

theorem cmd_exit_changes_spec {γ : Type} (orig : String) (f : ExitFlags) (hc : Bool)
    (st : Store) (e : GitExec γ) (g : γ) (t : List GitCmd)
    (h : (cmd_exit_changes orig f hc st e g t).code = 0) :
    (cmd_exit_changes orig f hc st e g t).store.sessions = st.sessions
    ∧ (cmd_exit_changes orig f hc st e g t).store.active = none
    ∧ GitCmd.checkoutBranch orig ∈ (cmd_exit_changes orig f hc st e g t).trace := by
  cases hc
  · rw [show cmd_exit_changes orig f false st e g t = cmd_exit_final orig st e g t [] from rfl]
      at h ⊢
    exact cmd_exit_final_spec orig st e g t [] h
  · cases hsave : f.save
    · cases hkeep : f.keep
      · rcases hEq : e.run GitCmd.resetHard g with ⟨ok, out, g1⟩
        cases ok
        · simp [cmd_exit_changes, hsave, hkeep, hEq] at h
        · have hred : cmd_exit_changes orig f true st e g t
              = cmd_exit_final orig st e g1 (t ++ [GitCmd.resetHard]) [] := by
            simp [cmd_exit_changes, hsave, hkeep, hEq]
          rw [hred] at h ⊢
          exact cmd_exit_final_spec orig st e g1 _ _ h
      · rcases hEq : e.run (GitCmd.stashPush orig) g with ⟨ok, out, g1⟩
        have hred : cmd_exit_changes orig f true st e g t
            = cmd_exit_final orig st e g1 (t ++ [GitCmd.stashPush orig])
                (if ok then [] else [Msg.warnStash]) := by
          cases ok <;> simp [cmd_exit_changes, hsave, hkeep, hEq]
        rw [hred] at h ⊢
        exact cmd_exit_final_spec orig st e g1 _ _ h
    · rcases hEq : e.run (GitCmd.commitSave orig) g with ⟨ok, out, g1⟩
      cases ok
      · simp [cmd_exit_changes, hsave, hEq] at h
      · have hred : cmd_exit_changes orig f true st e g t
            = cmd_exit_final orig st e g1 (t ++ [GitCmd.commitSave orig]) [] := by
          simp [cmd_exit_changes, hsave, hEq]
        rw [hred] at h ⊢
        exact cmd_exit_final_spec orig st e g1 _ _ h

/-- C7: every exit invocation that is not aborted at the confirmation prompt
and that completes (exit code 0) ends by checking out the session original
ref and clearing the active pointer, and leaves every session record file of
every session untouched (`cmd_exit` performs no record-store write at all),
so the session stays resumable. -/
theorem c7_exit_final {γ : Type} (opt : Option String) (cfg : Config) (stdinChar : Char)
    (st : Store) (e : GitExec γ) (g : γ) (s orig : String)
    (hact : st.active = some s) (horig : st.readSession s = some orig)
    (hcode : (cmd_exit opt cfg stdinChar st e g).code = 0)
    (hnab : Msg.abortedPrompt ∉ (cmd_exit opt cfg stdinChar st e g).events) :
    (cmd_exit opt cfg stdinChar st e g).store.sessions = st.sessions
    ∧ (cmd_exit opt cfg stdinChar st e g).store.active = none
    ∧ GitCmd.checkoutBranch orig ∈ (cmd_exit opt cfg stdinChar st e g).trace := by
  rcases hSt : e.run GitCmd.statusPorcelain g with ⟨ok0, out0, g1⟩
  by_cases hcond : (!(resolveExitFlags cfg (parseExitOption opt)).force
      && !(resolveExitFlags cfg (parseExitOption opt)).keep
      && !(resolveExitFlags cfg (parseExitOption opt)).save
      && cfg.confirm_exit && (ok0 && !(out0 == ""))
      && !(stdinChar == 'y') && !(stdinChar == 'Y')) = true
  · exfalso
    apply hnab
    simp [cmd_exit, hact, horig, hSt, hcond]
  · rw [Bool.not_eq_true] at hcond
    have hred : cmd_exit opt cfg stdinChar st e g
        = cmd_exit_changes orig (resolveExitFlags cfg (parseExitOption opt))
            (ok0 && !(out0 == "")) st e g1 [GitCmd.statusPorcelain] := by
      simp [cmd_exit, hact, horig, hSt, hcond]
    rw [hred] at hcode ⊢
    exact cmd_exit_changes_spec orig _ _ st e g1 _ hcode

/-- C7 witness at a concrete instance: exit with no option, a clean tree and
all git commands succeeding. -/
theorem c7_exit_final_witness :
    (cmd_exit none ⟨true, false, false⟩ 'n' stOneActive (pureExec fOk) ()).store.sessions
        = stOneActive.sessions
    ∧ (cmd_exit none ⟨true, false, false⟩ 'n' stOneActive (pureExec fOk) ()).store.active = none
    ∧ GitCmd.checkoutBranch "main"
        ∈ (cmd_exit none ⟨true, false, false⟩ 'n' stOneActive (pureExec fOk) ()).trace :=
  c7_exit_final none ⟨true, false, false⟩ 'n' stOneActive (pureExec fOk) () "s" "main"
    rfl rfl (by decide) (by decide)

/-! ### C10 — confirmation prompt abort -/

/-- C10: whenever `cmd_exit` reaches the confirmation prompt (uncommitted
changes reported, `confirm_exit` set, none of the resolved force/keep/save
flags apply) and the first input character is neither y nor Y, the process
prints Aborted and exits 0, having issued only the read-only status probe (no
state-changing VCS command) and having left the record store — active pointer
and all session records — exactly unchanged. -/
theorem c10_prompt_abort {γ : Type} (opt : Option String) (cfg : Config) (stdinChar : Char)
    (st : Store) (e : GitExec γ) (g : γ) (s orig : String)
    (hact : st.active = some s) (horig : st.readSession s = some orig)
    (hforce : (resolveExitFlags cfg (parseExitOption opt)).force = false)
    (hkeep : (resolveExitFlags cfg (parseExitOption opt)).keep = false)
    (hsave : (resolveExitFlags cfg (parseExitOption opt)).save = false)
    (hconf : cfg.confirm_exit = true)
    (hstOk : (e.run GitCmd.statusPorcelain g).1 = true)
    (hout : (e.run GitCmd.statusPorcelain g).2.1 ≠ "")
    (hy : stdinChar ≠ 'y') (hY : stdinChar ≠ 'Y') :
    (cmd_exit opt cfg stdinChar st e g).code = 0
    ∧ Msg.abortedPrompt ∈ (cmd_exit opt cfg stdinChar st e g).events
    ∧ (cmd_exit opt cfg stdinChar st e g).store = st
    ∧ (cmd_exit opt cfg stdinChar st e g).trace = [GitCmd.statusPorcelain] := by
  rcases hSt : e.run GitCmd.statusPorcelain g with ⟨ok0, out0, g1⟩
  rw [hSt] at hstOk hout
  have hob : (out0 == "") = false := beq_eq_false_iff_ne.mpr hout
  have hyb : (stdinChar == 'y') = false := beq_eq_false_iff_ne.mpr hy
  have hYb : (stdinChar == 'Y') = false := beq_eq_false_iff_ne.mpr hY
  simp at hstOk
  simp [cmd_exit, hact, horig, hSt, hforce, hkeep, hsave, hconf, hstOk, hob, hyb, hYb]

/-- C10 witness at a concrete instance: dirty tree, default configuration,
input character n. -/
theorem c10_prompt_abort_witness :
    (cmd_exit none ⟨true, false, false⟩ 'n' stOneActive (pureExec fDirty) ()).code = 0
    ∧ Msg.abortedPrompt
        ∈ (cmd_exit none ⟨true, false, false⟩ 'n' stOneActive (pureExec fDirty) ()).events
    ∧ (cmd_exit none ⟨true, false, false⟩ 'n' stOneActive (pureExec fDirty) ()).store
        = stOneActive
    ∧ (cmd_exit none ⟨true, false, false⟩ 'n' stOneActive (pureExec fDirty) ()).trace
        = [GitCmd.statusPorcelain] :=
  c10_prompt_abort none ⟨true, false, false⟩ 'n' stOneActive (pureExec fDirty) () "s" "main"
    rfl rfl rfl rfl rfl rfl rfl (by decide) (by decide) (by decide)

end Kaishaku
